import Mathlib

/-!
Shallow embedding of the osecure package: an HTTP request-authorization layer
that reconciles a cookie-backed session record with an Authorization-header
bearer credential, introspects the credential through an injected collaborator,
caches permissions with a TTL, and re-issues the session artifact.

Modelling conventions:
- Instants are unix seconds (Int). A Go time.Time value t compared with
  t.Before(u) becomes t < u. Each request handler samples one clock value now
  standing for every time.Now() call made while handling that request.
- Go strings are Lean String values; Go's byte-wise comparison on UTF-8
  strings equals code-point lexicographic comparison, embedded over
  String.data because the built-in String order does not reduce in the kernel.
- Fallible Go calls return Except; the injected collaborators are function
  fields; the cookie store and the response writer are modelled by the
  request's fields (cookie retrieval outcome, issue/save outcome).
- Collaborator invocations are recorded in a CallLog so the theorems can speak
  about how often and with which arguments the collaborators are called.
-/

namespace Osecure

/-- Unix-seconds value of Go's time.Time zero value (January 1, year 1, UTC).
A token's Expiry.IsZero() holds exactly when its unix value equals this
constant, and time.Unix(e, 0).IsZero() holds iff e equals it. -/
def goZeroTimeUnix : Int := -62135596800

/-- Byte-wise "less or equal" Go uses on string values, as code-point
lexicographic order on the decoded characters (UTF-8 byte order coincides
with code-point order). -/
def lexLe : List Char → List Char → Bool
  | [], _ => true
  | _ :: _, [] => false
  | a :: as, b :: bs =>
    if a.toNat < b.toNat then true
    else if b.toNat < a.toNat then false
    else lexLe as bs

/-- Go string comparison a <= b. -/
def goStringLe (a b : String) : Bool := lexLe a.data b.data

/-- Go sort.Strings sorts ascending; since string order is total and
antisymmetric the ascending reordering of a list is unique, so insertion sort
computes exactly the list sort.Strings produces. -/
def goSortStrings (l : List String) : List String :=
  List.insertionSort (fun a b => goStringLe a b = true) l

/-- Fuel-indexed body of Go's sort.Search loop:
i, j := 0, n; for i < j { h := (i+j)/2; if !f(h) { i = h+1 } else { j = h } }.
Each iteration strictly shrinks j - i, so j - i fuel always suffices. -/
def goSearchLoopFuel (f : Nat → Bool) : Nat → Nat → Nat → Nat
  | 0, i, _ => i
  | fuel + 1, i, j =>
    if i < j then
      let m := (i + j) / 2
      if f m then goSearchLoopFuel f fuel i m else goSearchLoopFuel f fuel (m + 1) j
    else i

/-- Go sort.Search(n, f). -/
def goSearch (n : Nat) (f : Nat → Bool) : Nat := goSearchLoopFuel f n 0 n

/-- Go sort.SearchStrings(a, x) = sort.Search(len(a), fun i => a[i] >= x). -/
def goSearchStrings (a : List String) (x : String) : Nat :=
  goSearch a.length (fun i => goStringLe x (a.getD i ""))

/-- Extra claims map (Go map[string]interface\x7b\x7d); values are opaque and
modelled as strings. -/
abbrev Extra := List (String × String)

/-- The fields of oauth2.Token that osecure reads and writes. Expiry is in
unix seconds; extra models the raw claims attached via WithExtra. -/
structure Token where
  AccessToken : String
  TokenType : String
  Expiry : Int
  extra : Extra
deriving Repr, DecidableEq

/-- makeToken in the source: token with Expiry = time.Unix(expireAt, 0). -/
def makeToken (tokenType : String) (accessToken : String) (expireAt : Int) : Token :=
  { AccessToken := accessToken, TokenType := tokenType, Expiry := expireAt, extra := [] }

/-- makeBearerToken in the source. -/
def makeBearerToken (accessToken : String) (expireAt : Int) : Token :=
  makeToken "Bearer" accessToken expireAt

/-- oauth2 Token.WithExtra. -/
def Token.withExtra (t : Token) (e : Extra) : Token := { t with extra := e }

/-- token.Expiry.IsZero() in the source. -/
def Token.expiryIsZero (t : Token) : Bool := t.Expiry = goZeroTimeUnix

/-- SessionExpireTime = 86400 (package variable, seconds). -/
def SessionExpireTime : Int := 86400

/-- PermissionExpireTime = 600 (package variable, seconds). -/
def PermissionExpireTime : Int := 600

/-- AuthSessionCookieData: the persisted session-record payload. -/
structure AuthSessionCookieData where
  token : Token
  Permissions : List String
  PermissionsExpireAt : Int
deriving Repr, DecidableEq

instance : Inhabited AuthSessionCookieData :=
  ⟨⟨⟨"", "", 0, []⟩, [], 0⟩⟩

/-- newAuthSessionCookieData: defaults a zero expiry to now + SessionExpireTime
and starts with an empty permission set whose cache timestamp is the zero
time (never fetched). -/
def newAuthSessionCookieData (now : Int) (token : Token) : AuthSessionCookieData :=
  let token :=
    if token.expiryIsZero then { token with Expiry := now + SessionExpireTime } else token
  { token := token
    Permissions := []
    PermissionsExpireAt := goZeroTimeUnix }

/-- cookieData.isTokenExpired(): Token.Expiry.Before(time.Now()). -/
def AuthSessionCookieData.isTokenExpired (cd : AuthSessionCookieData) (now : Int) : Bool :=
  cd.token.Expiry < now

/-- cookieData.isPermissionsExpired(): PermissionsExpireAt.Before(time.Now()). -/
def AuthSessionCookieData.isPermissionsExpired (cd : AuthSessionCookieData) (now : Int) : Bool :=
  cd.PermissionsExpireAt < now

/-- The package's named error values, plus constructors for the opaque errors
collaborators and the cookie store may return. -/
inductive OError where
  | ErrorInvalidSession
  | ErrorInvalidAuthorizationHeaderFormat
  | ErrorUnsupportedAuthorizationType
  | ErrorInvalidAudience
  | ErrorInvalidSubject
  | collaboratorError (msg : String)
  | cookieStoreError (msg : String)
deriving Repr, DecidableEq

/-- Decidable equality of fallible results, so concrete runs can be checked
by evaluation. -/
instance exceptDecEq {ε α : Type} [DecidableEq ε] [DecidableEq α] :
    DecidableEq (Except ε α) := fun x y =>
  match x, y with
  | .error a, .error b =>
    if h : a = b then isTrue (h ▸ rfl) else isFalse (fun hxy => h (Except.error.inj hxy))
  | .error _, .ok _ => isFalse (fun hxy => Except.noConfusion hxy)
  | .ok _, .error _ => isFalse (fun hxy => Except.noConfusion hxy)
  | .ok a, .ok b =>
    if h : a = b then isTrue (h ▸ rfl) else isFalse (fun hxy => h (Except.ok.inj hxy))

/-- The token-verifier collaborator pair, with the shapes the Auth Session
Manager calls in the main source file:
IntrospectTokenFunc(accessToken) = (subject, audience, expireAt, extra, err)
and GetPermissionsFunc(subject, audience, token) = (permissions, err).
(The separate declaration file token_introspection.go declares different,
incompatible shapes; see the C9 result.) -/
structure TokenVerifier where
  IntrospectTokenFunc : String → Except OError (String × String × Int × Extra)
  GetPermissionsFunc : String → String → Token → Except OError (List String)

/-- The part of oauth2.Config the authorization logic reads. -/
structure OAuthClientConfig where
  ClientID : String
deriving Repr, DecidableEq

/-- OAuthSession: the fields that the request-authorization logic uses. -/
structure OAuthSession where
  name : String
  client : OAuthClientConfig
  tokenVerifier : TokenVerifier

/-- Outcome of cookieStore.Get plus the lookup of session.Values under the
"data" key: the store may fail, the session may lack a usable record, or a
record is present. -/
inductive CookieGet where
  | getError (msg : String)
  | noData
  | data (cd : AuthSessionCookieData)
deriving Repr, DecidableEq

/-- A request together with the behaviour of its cookie-store interactions:
cookie is what retrieving the named session yields, authorizationHeader is
r.Header.Get("Authorization") (empty when absent), and issueErr is the error
cookieStore New/Save would return when issuing a cookie on this
request/response pair (none: saving succeeds). -/
structure Request where
  cookie : CookieGet
  authorizationHeader : String
  issueErr : Option OError
deriving Repr, DecidableEq

/-- retrieveAuthCookie: any store error, missing value or type mismatch
collapses to nil. -/
def retrieveAuthCookie (r : Request) : Option AuthSessionCookieData :=
  match r.cookie with
  | .data cd => some cd
  | _ => none

/-- issueAuthCookie: stores the record under "data" and saves; on success the
persisted record is returned so theorems can inspect what was stored. -/
def issueAuthCookie (issueErr : Option OError) (cookieData : AuthSessionCookieData) :
    Except OError AuthSessionCookieData :=
  match issueErr with
  | some e => .error e
  | none => .ok cookieData

/-- First-space split underlying strings.SplitN(s, " ", 2): none when s
contains no space (SplitN yields a single field), otherwise the parts before
and after the first space (the remainder keeps any further spaces). -/
def splitAtFirstSpace : List Char → Option (List Char × List Char)
  | [] => none
  | c :: rest =>
    if c = ' ' then some ([], rest)
    else (splitAtFirstSpace rest).map (fun p => (c :: p.1, p.2))

/-- ASCII-range model of a character's lower-casing as used by
strings.EqualFold; exact for comparisons against the ASCII word "bearer". -/
def asciiToLower (c : Char) : Char :=
  if 'A' ≤ c ∧ c ≤ 'Z' then Char.ofNat (c.toNat + 32) else c

/-- strings.EqualFold restricted to the ASCII fold, which coincides with Go's
simple Unicode fold whenever one side is "bearer". -/
def goEqualFold (a b : String) : Bool :=
  a.data.map asciiToLower == b.data.map asciiToLower

/-- getBearerToken: SplitN(header, " ", 2) must yield exactly two fields and
the first must case-insensitively equal "bearer"; the second field is the
raw bearer value. -/
def getBearerToken (r : Request) : Except OError String :=
  let authorizationHeaderValue := r.authorizationHeader
  match splitAtFirstSpace authorizationHeaderValue.data with
  | none => .error .ErrorInvalidAuthorizationHeaderFormat
  | some (tokenType, bearerToken) =>
    if ¬ goEqualFold (String.mk tokenType) "bearer" then
      .error .ErrorUnsupportedAuthorizationType
    else
      .ok (String.mk bearerToken)

/-- Arguments of the collaborator invocations a handler performed:
the access values passed to IntrospectTokenFunc and the (subject, audience,
token) triples passed to GetPermissionsFunc. -/
structure CallLog where
  introspectCalls : List String
  permissionCalls : List (String × String × Token)
deriving Repr, DecidableEq

/-- The empty call log. -/
def CallLog.empty : CallLog := ⟨[], []⟩

/-- Concatenation of call logs of successive steps. -/
def CallLog.append (a b : CallLog) : CallLog :=
  ⟨a.introspectCalls ++ b.introspectCalls, a.permissionCalls ++ b.permissionCalls⟩

/-- AuthSessionData: the request-scoped authenticated identity (the Go struct
embeds a *AuthSessionCookieData; the embedded record is an explicit field
here). -/
structure AuthSessionData where
  Subject : String
  Audience : String
  cookieData : AuthSessionCookieData
deriving Repr, DecidableEq

/-- Promoted isTokenExpired of the embedded record. -/
def AuthSessionData.isTokenExpired (d : AuthSessionData) (now : Int) : Bool :=
  d.cookieData.isTokenExpired now

/-- The access-value selection step of getAuthSessionDataFromRequest
(lines choosing between the stored cookie record and the Authorization
header): yields the raw access value, the isTokenFromAuthorizationHeader
flag, and the cookie record used when the cookie path was taken. -/
def extractAccessValue (now : Int) (r : Request) :
    Except OError (String × Bool × Option AuthSessionCookieData) :=
  match retrieveAuthCookie r with
  | none => (getBearerToken r).map (fun t => (t, true, none))
  | some cd =>
    if cd.isTokenExpired now then (getBearerToken r).map (fun t => (t, true, none))
    else .ok (cd.token.AccessToken, false, some cd)

/-- getAuthSessionDataFromRequest: select the access value, introspect it
(always), on the header path synthesize a fresh session record from the
introspection result, and reject unless the audience equals the configured
client ID. The CallLog records the introspection invocation. -/
def getAuthSessionDataFromRequest (s : OAuthSession) (now : Int) (r : Request) :
    Except OError (AuthSessionData × Bool) × CallLog :=
  match extractAccessValue now r with
  | .error e => (.error e, CallLog.empty)
  | .ok (accessToken, isTokenFromAuthorizationHeader, usedCookie) =>
    let log : CallLog := ⟨[accessToken], []⟩
    match s.tokenVerifier.IntrospectTokenFunc accessToken with
    | .error e => (.error e, log)
    | .ok (subject, audience, expireAt, extra) =>
      let cookieData :=
        if isTokenFromAuthorizationHeader then
          newAuthSessionCookieData now ((makeBearerToken accessToken expireAt).withExtra extra)
        else
          usedCookie.getD default
      let data : AuthSessionData :=
        { Subject := subject, Audience := audience, cookieData := cookieData }
      if data.Audience ≠ s.client.ClientID then
        (.error .ErrorInvalidAudience, log)
      else
        (.ok (data, isTokenFromAuthorizationHeader), log)

/-- isAuthorized: extraction must succeed with a non-expired token; a
header-sourced credential is opportunistically persisted, and a persistence
failure fails authorization. -/
def isAuthorized (s : OAuthSession) (now : Int) (r : Request) : Bool × CallLog :=
  match getAuthSessionDataFromRequest s now r with
  | (.error _, log) => (false, log)
  | (.ok (data, isTokenFromAuthorizationHeader), log) =>
    if data.isTokenExpired now then (false, log)
    else if isTokenFromAuthorizationHeader then
      match issueAuthCookie r.issueErr data.cookieData with
      | .error _ => (false, log)
      | .ok _ => (true, log)
    else (true, log)

/-- ensurePermUpdated: refresh the permission cache only when it is expired;
the refresh makes one GetPermissionsFunc call with (Subject, Audience, token),
overwrites the set, sorts it, and stamps the cache expiry now +
PermissionExpireTime. Returns whether a refresh happened and the (possibly
mutated) identity. -/
def ensurePermUpdated (s : OAuthSession) (now : Int) (data : AuthSessionData) :
    Except OError (Bool × AuthSessionData) × CallLog :=
  if ¬ data.cookieData.isPermissionsExpired now then
    (.ok (false, data), CallLog.empty)
  else
    let log : CallLog := ⟨[], [(data.Subject, data.Audience, data.cookieData.token)]⟩
    match s.tokenVerifier.GetPermissionsFunc data.Subject data.Audience data.cookieData.token with
    | .error e => (.error e, log)
    | .ok permissions =>
      let cd := { data.cookieData with
        Permissions := goSortStrings permissions
        PermissionsExpireAt := now + PermissionExpireTime }
      (.ok (true, { data with cookieData := cd }), log)

/-- GetPermissions: extract and validate the credential, refresh the
permission cache if needed, re-persist the artifact when the credential was
header-sourced or the cache was refreshed, and return the permission set. -/
def GetPermissions (s : OAuthSession) (now : Int) (r : Request) :
    Except OError (List String) × CallLog :=
  match getAuthSessionDataFromRequest s now r with
  | (.error e, log) => (.error e, log)
  | (.ok (data, isTokenFromAuthorizationHeader), log) =>
    if data.isTokenExpired now then (.error .ErrorInvalidSession, log)
    else
      match ensurePermUpdated s now data with
      | (.error e, log2) => (.error e, log.append log2)
      | (.ok (isPermissionUpdated, data2), log2) =>
        let log3 := log.append log2
        if isTokenFromAuthorizationHeader || isPermissionUpdated then
          match issueAuthCookie r.issueErr data2.cookieData with
          | .error e => (.error e, log3)
          | .ok _ => (.ok data2.cookieData.Permissions, log3)
        else
          (.ok data2.cookieData.Permissions, log3)

/-- HasPermission: fails closed on any GetPermissions error, otherwise
binary-searches the sorted permission set for the exact string. -/
def HasPermission (s : OAuthSession) (now : Int) (r : Request) (permission : String) :
    Bool × CallLog :=
  match GetPermissions s now r with
  | (.error _, log) => (false, log)
  | (.ok perms, log) =>
    let id := goSearchStrings perms permission
    (decide (id < perms.length) && (perms.getD id "" == permission), log)

/-- GetSessionData: same extraction and validation path, no permission
refresh. -/
def GetSessionData (s : OAuthSession) (now : Int) (r : Request) :
    Except OError AuthSessionData × CallLog :=
  match getAuthSessionDataFromRequest s now r with
  | (.error e, log) => (.error e, log)
  | (.ok (data, _), log) =>
    if data.isTokenExpired now then (.error .ErrorInvalidSession, log)
    else (.ok data, log)

/-- Observable outcome of an HTTP handler in this embedding. -/
inductive HandlerOutcome where
  | panicked
  | redirect (statusCode : Nat) (location : String)
  | httpError (statusCode : Nat)
deriving Repr, DecidableEq

/-- expireAuthCookie: panics when cookieStore.Get fails; otherwise deletes the
"data" value, forces MaxAge -1 and saves. none models the panic. -/
def expireAuthCookie (r : Request) : Option Unit :=
  match r.cookie with
  | .getError _ => none
  | _ => some ()

/-- ExpireSession handler: expire the cookie, then redirect 303. A panic in
expireAuthCookie aborts the handler before the redirect. -/
def ExpireSession (s : OAuthSession) (redirect : String) (r : Request) : HandlerOutcome :=
  match expireAuthCookie r with
  | none => .panicked
  | some _ => .redirect 303 redirect

/-- A callback request: the query parameters, the outcome the external OAuth
client's Exchange would produce for its code, and the cookie-issue outcome. -/
structure CallbackRequest where
  code : String
  state : String
  exchangeResult : Except String Token
  issueErr : Option OError

/-- CallbackView: exchange the code (400 on failure), wrap the token as a
fresh session record and persist it (500 on failure), redirect 303 to state.
The second component is the record persisted, when one was. -/
def CallbackView (s : OAuthSession) (now : Int) (r : CallbackRequest) :
    HandlerOutcome × Option AuthSessionCookieData :=
  match r.exchangeResult with
  | .error _ => (.httpError 400, none)
  | .ok token =>
    match issueAuthCookie r.issueErr (newAuthSessionCookieData now token) with
    | .error _ => (.httpError 500, none)
    | .ok saved => (.redirect 303 r.state, some saved)

/-- Sortedness of a permission list in the order sort.Strings uses. -/
def SortedPerms (l : List String) : Prop :=
  List.Sorted (fun a b => goStringLe a b = true) l

/-- Sortedness of a permission list is checkable by evaluation. -/
instance sortedPermsDec (l : List String) : Decidable (SortedPerms l) :=
  inferInstanceAs (Decidable (List.Sorted (fun a b => goStringLe a b = true) l))

/-- Modelled from the spec claim's words (C3): the whitespace-separated fields
of a string, i.e. its maximal runs of non-whitespace characters. -/
def whitespaceFieldsAux : List Char → List Char → List (List Char)
  | [], acc => if acc = [] then [] else [acc.reverse]
  | c :: rest, acc =>
    if c.isWhitespace then
      if acc = [] then whitespaceFieldsAux rest []
      else acc.reverse :: whitespaceFieldsAux rest []
    else whitespaceFieldsAux rest (c :: acc)

/-- Modelled from the spec claim's words (C3): whitespace-separated fields of
a string. -/
def whitespaceFields (s : String) : List String :=
  (whitespaceFieldsAux s.data []).map String.mk

/-! Concrete fixtures used by the closed counterexample and witness theorems. -/

/-- A token valid until t = 2000. -/
def demoToken : Token :=
  { AccessToken := "tokA", TokenType := "Bearer", Expiry := 2000, extra := [] }

/-- A cookie record whose permission cache is fresh until t = 2000. -/
def demoCookie : AuthSessionCookieData :=
  { token := demoToken, Permissions := ["read"], PermissionsExpireAt := 2000 }

/-- A cookie record whose permission cache went stale at t = 500. -/
def demoCookieStale : AuthSessionCookieData :=
  { token := demoToken, Permissions := ["read"], PermissionsExpireAt := 500 }

/-- A deployment configured for client1 whose authority introspects every
credential to subject alice, audience client1, expiry 2000, and grants the
(unsorted) permission list [write, read]. -/
def sDemo : OAuthSession :=
  { name := "osecure"
    client := { ClientID := "client1" }
    tokenVerifier :=
      { IntrospectTokenFunc := fun _ => .ok ("alice", "client1", 2000, [])
        GetPermissionsFunc := fun _ _ _ => .ok ["write", "read"] } }

/-- The same authority behind a deployment configured for client2, so every
credential introspects to a mismatched audience. -/
def sDemoWrongAud : OAuthSession :=
  { name := "osecure"
    client := { ClientID := "client2" }
    tokenVerifier := sDemo.tokenVerifier }

/-- A client1 deployment whose authority reports expiry 500 (already past at
t = 1000). -/
def sDemoPast : OAuthSession :=
  { name := "osecure"
    client := { ClientID := "client1" }
    tokenVerifier :=
      { IntrospectTokenFunc := fun _ => .ok ("alice", "client1", 500, [])
        GetPermissionsFunc := fun _ _ _ => .ok ["read"] } }

/-- A request carrying the fresh cookie record and nothing else. -/
def rDemoCookie : Request :=
  { cookie := .data demoCookie, authorizationHeader := "", issueErr := none }

/-- A request carrying the stale-cache cookie record. -/
def rDemoStale : Request :=
  { cookie := .data demoCookieStale, authorizationHeader := "", issueErr := none }

/-- A request with no cookie and a well-formed bearer header. -/
def rDemoHeader : Request :=
  { cookie := .noData, authorizationHeader := "Bearer tokA", issueErr := none }

/-- A request with no cookie and no Authorization header. -/
def rDemoEmpty : Request :=
  { cookie := .noData, authorizationHeader := "", issueErr := none }

/-- A request on which the cookie store fails to retrieve the session. -/
def rDemoGetErr : Request :=
  { cookie := .getError "securecookie: decode failed", authorizationHeader := ""
    issueErr := none }

/-- A callback request whose code exchanges into a token with zero expiry. -/
def rDemoCallback : CallbackRequest :=
  { code := "c0", state := "/home"
    exchangeResult := .ok { AccessToken := "tokB", TokenType := "Bearer"
                            Expiry := goZeroTimeUnix, extra := [] }
    issueErr := none }

/-! Properties of the embedded string order. -/

/-- Go string comparison is reflexive. -/
theorem lexLe_refl : ∀ a : List Char, lexLe a a = true
  | [] => rfl
  | c :: cs => by simp [lexLe, lexLe_refl cs]

/-- Go string comparison is total. -/
theorem lexLe_total : ∀ a b : List Char, lexLe a b = true ∨ lexLe b a = true
  | [], _ => Or.inl rfl
  | _ :: _, [] => Or.inr rfl
  | a :: as, b :: bs => by
    rcases Nat.lt_trichotomy a.toNat b.toNat with h | h | h
    · exact Or.inl (by simp [lexLe, h])
    · rcases lexLe_total as bs with ih | ih
      · exact Or.inl (by simp [lexLe, h, ih])
      · exact Or.inr (by simp [lexLe, h.symm, ih])
    · exact Or.inr (by simp [lexLe, h])

/-- Go string comparison is transitive. -/
theorem lexLe_trans : ∀ a b c : List Char,
    lexLe a b = true → lexLe b c = true → lexLe a c = true
  | [], _, _, _, _ => rfl
  | _ :: _, [], _, h, _ => by simp [lexLe] at h
  | _ :: _, _ :: _, [], _, h => by simp [lexLe] at h
  | a :: as, b :: bs, c :: cs, h1, h2 => by
    simp only [lexLe] at h1 h2 ⊢
    rcases Nat.lt_trichotomy a.toNat b.toNat with hab | hab | hab
    · rcases Nat.lt_trichotomy b.toNat c.toNat with hbc | hbc | hbc
      · simp [Nat.lt_trans hab hbc]
      · simp [hbc ▸ hab]
      · simp [Nat.lt_asymm hbc, hbc] at h2
    · rcases Nat.lt_trichotomy b.toNat c.toNat with hbc | hbc | hbc
      · simp [hab ▸ hbc]
      · simp only [hab, Nat.lt_irrefl, if_false] at h1
        simp only [hbc, Nat.lt_irrefl, if_false] at h2
        simp [hab.trans hbc, Nat.lt_irrefl]
        exact lexLe_trans as bs cs h1 h2
      · simp [Nat.lt_asymm hbc, hbc] at h2
    · simp [Nat.lt_asymm hab, hab] at h1

/-- Go string comparison is antisymmetric. -/
theorem lexLe_antisymm : ∀ a b : List Char,
    lexLe a b = true → lexLe b a = true → a = b
  | [], [], _, _ => rfl
  | [], _ :: _, _, h => by simp [lexLe] at h
  | _ :: _, [], h, _ => by simp [lexLe] at h
  | a :: as, b :: bs, h1, h2 => by
    simp only [lexLe] at h1 h2
    rcases Nat.lt_trichotomy a.toNat b.toNat with hab | hab | hab
    · simp [Nat.lt_asymm hab, hab] at h2
    · have hhead : a = b := Char.ext (UInt32.ext hab)
      simp only [hab, Nat.lt_irrefl, if_false] at h1 h2
      have htail : as = bs := lexLe_antisymm as bs h1 h2
      rw [hhead, htail]
    · simp [Nat.lt_asymm hab, hab] at h1

/-- String-level reflexivity. -/
theorem goStringLe_refl (a : String) : goStringLe a a = true := lexLe_refl a.data

/-- String-level transitivity. -/
theorem goStringLe_trans {a b c : String} (h1 : goStringLe a b = true)
    (h2 : goStringLe b c = true) : goStringLe a c = true :=
  lexLe_trans a.data b.data c.data h1 h2

/-- String-level antisymmetry. -/
theorem goStringLe_antisymm {a b : String} (h1 : goStringLe a b = true)
    (h2 : goStringLe b a = true) : a = b := by
  cases a with
  | mk da =>
    cases b with
    | mk db => exact congrArg String.mk (lexLe_antisymm da db h1 h2)

/-- The list sort.Strings produces is sorted ascending. -/
theorem goSortStrings_sorted (l : List String) : SortedPerms (goSortStrings l) :=
  @List.sorted_insertionSort String (fun a b => goStringLe a b = true) _
    ⟨fun a b => lexLe_total a.data b.data⟩
    ⟨fun _ _ _ => goStringLe_trans⟩ l

/-- The list sort.Strings produces is a permutation of its input. -/
theorem goSortStrings_perm (l : List String) : (goSortStrings l).Perm l :=
  List.perm_insertionSort _ l

/-! Properties of the first-space split behind strings.SplitN(s, " ", 2). -/

/-- A string with no space yields a single field. -/
theorem splitAtFirstSpace_eq_none (l : List Char) (h : ' ' ∉ l) :
    splitAtFirstSpace l = none := by
  induction l with
  | nil => rfl
  | cons c cs ih =>
    simp only [List.mem_cons, not_or] at h
    simp [splitAtFirstSpace, Ne.symm h.1, ih h.2]

/-- Splitting at the first space of a string of shape t ++ " " ++ v with no
space in t yields exactly (t, v). -/
theorem splitAtFirstSpace_append (t v : List Char) (h : ' ' ∉ t) :
    splitAtFirstSpace (t ++ ' ' :: v) = some (t, v) := by
  induction t with
  | nil => simp [splitAtFirstSpace]
  | cons c cs ih =>
    simp only [List.mem_cons, not_or] at h
    simp [splitAtFirstSpace, Ne.symm h.1, ih h.2]

/-! Correctness of the embedded sort.Search loop. -/

/-- With enough fuel, the loop of sort.Search returns the boundary index of a
monotone predicate: everything below it is false, everything from it up to n
is true. -/
theorem goSearchLoopFuel_spec (f : Nat → Bool) (n : Nat)
    (hmono : ∀ i j, i ≤ j → j < n → f i = true → f j = true) :
    ∀ fuel i j, i ≤ j → j ≤ n → j - i ≤ fuel →
      (∀ k, k < i → f k = false) → (∀ k, j ≤ k → k < n → f k = true) →
      i ≤ goSearchLoopFuel f fuel i j ∧ goSearchLoopFuel f fuel i j ≤ j ∧
      (∀ k, k < goSearchLoopFuel f fuel i j → f k = false) ∧
      (∀ k, goSearchLoopFuel f fuel i j ≤ k → k < n → f k = true) := by
  intro fuel
  induction fuel with
  | zero =>
    intro i j hij hjn hfuel hlow hhigh
    have hij' : i = j := by omega
    subst hij'
    exact ⟨le_rfl, le_rfl, hlow, hhigh⟩
  | succ fuel ih =>
    intro i j hij hjn hfuel hlow hhigh
    by_cases hlt : i < j
    · have him : i ≤ (i + j) / 2 := by omega
      have hmj : (i + j) / 2 < j := by omega
      have heq : goSearchLoopFuel f (fuel + 1) i j =
          if f ((i + j) / 2) then goSearchLoopFuel f fuel i ((i + j) / 2)
          else goSearchLoopFuel f fuel ((i + j) / 2 + 1) j := by
        simp [goSearchLoopFuel, hlt]
      rw [heq]
      by_cases hfm : f ((i + j) / 2) = true
      · rw [if_pos hfm]
        have hhigh' : ∀ k, (i + j) / 2 ≤ k → k < n → f k = true := fun k hk1 hk2 =>
          hmono ((i + j) / 2) k hk1 hk2 hfm
        obtain ⟨h1, h2, h3, h4⟩ := ih i ((i + j) / 2) him (by omega) (by omega) hlow hhigh'
        exact ⟨h1, by omega, h3, h4⟩
      · rw [if_neg hfm]
        have hlow' : ∀ k, k < (i + j) / 2 + 1 → f k = false := by
          intro k hk
          by_cases hki : k < i
          · exact hlow k hki
          · cases hfk : f k with
            | false => rfl
            | true =>
              exact absurd (hmono k ((i + j) / 2) (by omega) (by omega) hfk) hfm
        obtain ⟨h1, h2, h3, h4⟩ := ih ((i + j) / 2 + 1) j (by omega) hjn (by omega) hlow' hhigh
        exact ⟨by omega, h2, h3, h4⟩
    · have hij' : i = j := by omega
      subst hij'
      have heq : goSearchLoopFuel f (fuel + 1) i i = i := by
        simp [goSearchLoopFuel]
      rw [heq]
      exact ⟨le_rfl, le_rfl, hlow, hhigh⟩

/-- sort.Search(n, f) with a monotone f finds the first true index (or n). -/
theorem goSearch_spec (n : Nat) (f : Nat → Bool)
    (hmono : ∀ i j, i ≤ j → j < n → f i = true → f j = true) :
    goSearch n f ≤ n ∧ (∀ k, k < goSearch n f → f k = false) ∧
    (∀ k, goSearch n f ≤ k → k < n → f k = true) := by
  obtain ⟨_, h2, h3, h4⟩ := goSearchLoopFuel_spec f n hmono n 0 n (Nat.zero_le n) le_rfl
    (by omega) (fun k hk => absurd hk (Nat.not_lt_zero k))
    (fun k hk1 hk2 => absurd hk1 (by omega))
  exact ⟨h2, h3, h4⟩

/-- Two positions of a sorted permission list compare in order. -/
theorem sortedPerms_getD_le (a : List String) (hs : SortedPerms a) (i j : Nat)
    (hij : i ≤ j) (hj : j < a.length) :
    goStringLe (a.getD i "") (a.getD j "") = true := by
  rcases Nat.lt_or_ge i j with h | h
  · have hi : i < a.length := by omega
    have hrel := List.Sorted.rel_get_of_lt hs (a := ⟨i, hi⟩) (b := ⟨j, hj⟩)
      (Fin.mk_lt_mk.mpr h)
    rwa [List.getD_eq_get a "" hi, List.getD_eq_get a "" hj]
  · have hij' : i = j := by omega
    subst hij'
    exact goStringLe_refl _

/-- On a sorted list, the test sort.SearchStrings-based membership performs
(index in range and exact match there) is equivalent to list membership. -/
theorem goSearchStrings_mem (a : List String) (x : String) (hs : SortedPerms a) :
    ((decide (goSearchStrings a x < a.length)) && (a.getD (goSearchStrings a x) "" == x))
      = true ↔ x ∈ a := by
  have hmono : ∀ i j, i ≤ j → j < a.length →
      goStringLe x (a.getD i "") = true → goStringLe x (a.getD j "") = true :=
    fun i j hij hj hi => goStringLe_trans hi (sortedPerms_getD_le a hs i j hij hj)
  obtain ⟨hle0, hlow0, hhigh0⟩ := goSearch_spec a.length
    (fun i => goStringLe x (a.getD i "")) hmono
  have hle : goSearchStrings a x ≤ a.length := hle0
  have hlow : ∀ k, k < goSearchStrings a x → goStringLe x (a.getD k "") = false := hlow0
  have hhigh : ∀ k, goSearchStrings a x ≤ k → k < a.length →
      goStringLe x (a.getD k "") = true := hhigh0
  constructor
  · intro h
    rw [Bool.and_eq_true, decide_eq_true_iff] at h
    obtain ⟨hlt, hbeq⟩ := h
    have hx : a.getD (goSearchStrings a x) "" = x := by
      exact (beq_iff_eq).mp hbeq
    rw [List.getD_eq_get a "" hlt] at hx
    exact hx ▸ List.get_mem a (goSearchStrings a x) hlt
  · intro hmem
    obtain ⟨⟨k, hk⟩, hget⟩ := List.mem_iff_get.mp hmem
    have hks : a.getD k "" = x := by
      rw [List.getD_eq_get a "" hk]
      exact hget
    have hkge : goSearchStrings a x ≤ k := by
      by_contra hcon
      have := hlow k (by omega)
      rw [hks] at this
      exact absurd (goStringLe_refl x) (by simp [this])
    have hlt : goSearchStrings a x < a.length := by omega
    have hxle : goStringLe x (a.getD (goSearchStrings a x) "") = true :=
      hhigh (goSearchStrings a x) le_rfl hlt
    have hlex : goStringLe (a.getD (goSearchStrings a x) "") x = true := by
      have := sortedPerms_getD_le a hs (goSearchStrings a x) k hkge hk
      rwa [hks] at this
    have heq : a.getD (goSearchStrings a x) "" = x := goStringLe_antisymm hlex hxle
    rw [Bool.and_eq_true, decide_eq_true_iff]
    exact ⟨hlt, (beq_iff_eq).mpr heq⟩

/-- Rebuilding a string from its character data gives the string back. -/
theorem stringMk_data (s : String) : String.mk s.data = s := rfl

/-- The extraction/introspection step never invokes the permission-lookup
collaborator. -/
theorem getAuth_permissionCalls_nil (s : OAuthSession) (now : Int) (r : Request) :
    (getAuthSessionDataFromRequest s now r).2.permissionCalls = [] := by
  unfold getAuthSessionDataFromRequest
  rcases extractAccessValue now r with e | ⟨av, fh, cdo⟩
  · rfl
  · dsimp only
    rcases s.tokenVerifier.IntrospectTokenFunc av with e | ⟨subj, aud, exp, ex⟩
    · rfl
    · dsimp only
      split <;> rfl

/-- The permission-refresh step either makes no permission-lookup call or
exactly one, with the identity's (subject, audience, token). -/
theorem ensurePermUpdated_permissionCalls (s : OAuthSession) (now : Int)
    (data : AuthSessionData) :
    (ensurePermUpdated s now data).2.permissionCalls = [] ∨
    (ensurePermUpdated s now data).2.permissionCalls
      = [(data.Subject, data.Audience, data.cookieData.token)] := by
  unfold ensurePermUpdated
  by_cases hexp : data.cookieData.isPermissionsExpired now = true
  · rw [if_neg (by simp [hexp])]
    dsimp only
    rcases s.tokenVerifier.GetPermissionsFunc data.Subject data.Audience data.cookieData.token
      with e | perms
    · exact Or.inr rfl
    · exact Or.inr rfl
  · rw [if_pos (by simpa using hexp)]
    exact Or.inl rfl

/-! The claims. -/

/-- C1, counterexample: a request carrying a valid, non-expired cookie-backed
session record on which Authorize returns true and yet the credential
extraction path does invoke the injected introspection collaborator on that
very request, refuting the claim that cookie-backed sessions are not
re-introspected. -/
theorem C1_counterexample :
    retrieveAuthCookie rDemoCookie = some demoCookie ∧
    demoCookie.isTokenExpired 1000 = false ∧
    (isAuthorized sDemo 1000 rDemoCookie).1 = true ∧
    (isAuthorized sDemo 1000 rDemoCookie).2.introspectCalls ≠ [] := by decide

/-- C1, amended: for every request carrying a valid, non-expired cookie-backed
session record whose access token introspects successfully to the configured
audience, Authorize returns true, but the extraction path invokes the injected
introspection collaborator exactly once on that request — cookie-backed
sessions are re-introspected on every Authorize call, so across repeated calls
the introspection count grows with the number of calls, not with the
permission-cache window. -/
theorem C1_amended (s : OAuthSession) (now : Int) (r : Request)
    (cd : AuthSessionCookieData) (subject : String) (expireAt : Int) (extra : Extra)
    (hcookie : retrieveAuthCookie r = some cd)
    (hvalid : cd.isTokenExpired now = false)
    (hintro : s.tokenVerifier.IntrospectTokenFunc cd.token.AccessToken
      = .ok (subject, s.client.ClientID, expireAt, extra)) :
    (isAuthorized s now r).1 = true ∧
    (isAuthorized s now r).2.introspectCalls = [cd.token.AccessToken] := by
  have hext : extractAccessValue now r = .ok (cd.token.AccessToken, false, some cd) := by
    simp [extractAccessValue, hcookie, hvalid]
  have hget : getAuthSessionDataFromRequest s now r =
      (.ok (⟨subject, s.client.ClientID, cd⟩, false), ⟨[cd.token.AccessToken], []⟩) := by
    simp [getAuthSessionDataFromRequest, hext, hintro]
  constructor <;>
    simp [isAuthorized, hget, AuthSessionData.isTokenExpired, hvalid]

/-- Witness for the C1 amended theorem at the concrete fixture. -/
theorem C1_amended_witness :
    (isAuthorized sDemo 1000 rDemoCookie).1 = true ∧
    (isAuthorized sDemo 1000 rDemoCookie).2.introspectCalls = [demoToken.AccessToken] :=
  C1_amended sDemo 1000 rDemoCookie demoCookie "alice" 2000 []
    (by decide) (by decide) (by decide)

/-- C2: whenever the credential the request resolves to introspects to an
audience different from the configured client identifier, reconciliation
rejects with ErrorInvalidAudience regardless of token validity or expiry, so
Authorize returns false and GetPermissions and GetSessionData return that
error. -/
theorem C2_theorem (s : OAuthSession) (now : Int) (r : Request) (av : String)
    (fh : Bool) (usedCookie : Option AuthSessionCookieData)
    (subject audience : String) (expireAt : Int) (extra : Extra)
    (hext : extractAccessValue now r = .ok (av, fh, usedCookie))
    (hintro : s.tokenVerifier.IntrospectTokenFunc av
      = .ok (subject, audience, expireAt, extra))
    (hmismatch : audience ≠ s.client.ClientID) :
    (getAuthSessionDataFromRequest s now r).1 = .error .ErrorInvalidAudience ∧
    (isAuthorized s now r).1 = false ∧
    (GetPermissions s now r).1 = .error .ErrorInvalidAudience ∧
    (GetSessionData s now r).1 = .error .ErrorInvalidAudience := by
  have hget : getAuthSessionDataFromRequest s now r =
      (.error .ErrorInvalidAudience, ⟨[av], []⟩) := by
    simp [getAuthSessionDataFromRequest, hext, hintro, hmismatch]
  refine ⟨by simp [hget], ?_, ?_, ?_⟩ <;>
    simp [isAuthorized, GetPermissions, GetSessionData, hget]

/-- Witness for C2: a deployment configured for client2 rejects a credential
introspecting to audience client1. -/
theorem C2_witness :
    (GetSessionData sDemoWrongAud 1000 rDemoCookie).1 = .error .ErrorInvalidAudience :=
  (C2_theorem sDemoWrongAud 1000 rDemoCookie demoToken.AccessToken false (some demoCookie)
    "alice" "client1" 2000 [] (by decide) (by decide) (by decide)).2.2.2

/-- C3, counterexample: the header "Bearer\tx" consists of exactly two
whitespace-separated fields whose first case-insensitively equals bearer, yet
header extraction rejects it with ErrorInvalidAuthorizationHeaderFormat —
the code splits only at the first space character, so the claimed
whitespace-field acceptance criterion is not what the code implements. -/
theorem C3_counterexample :
    whitespaceFields "Bearer\tx" = ["Bearer", "x"] ∧
    goEqualFold "Bearer" "bearer" = true ∧
    getBearerToken { cookie := .noData, authorizationHeader := "Bearer\tx", issueErr := none }
      = .error .ErrorInvalidAuthorizationHeaderFormat := by decide

/-- C3, amended: header extraction accepts iff the header splits at its first
space character into a scheme that case-insensitively equals bearer and a
non-split remainder, the remainder (further spaces included) being the raw
access value with fromHeader true; a header containing no space at all fails
with ErrorInvalidAuthorizationHeaderFormat, and a spaced header whose scheme
is not bearer fails with ErrorUnsupportedAuthorizationType. -/
theorem C3_amended (r : Request) (t v : String)
    (hsplit : r.authorizationHeader.data = t.data ++ ' ' :: v.data)
    (hnospace : ' ' ∉ t.data) :
    (goEqualFold t "bearer" = true → getBearerToken r = .ok v) ∧
    (goEqualFold t "bearer" = false →
      getBearerToken r = .error .ErrorUnsupportedAuthorizationType) ∧
    (∀ r2 : Request, ' ' ∉ r2.authorizationHeader.data →
      getBearerToken r2 = .error .ErrorInvalidAuthorizationHeaderFormat) := by
  have hsp : splitAtFirstSpace r.authorizationHeader.data = some (t.data, v.data) := by
    rw [hsplit]
    exact splitAtFirstSpace_append t.data v.data hnospace
  refine ⟨?_, ?_, ?_⟩
  · intro hfold
    simp [getBearerToken, hsp, stringMk_data, hfold]
  · intro hfold
    simp [getBearerToken, hsp, stringMk_data, hfold]
  · intro r2 h2
    simp [getBearerToken, splitAtFirstSpace_eq_none _ h2]

/-- Witness for the C3 amended theorem on a well-formed bearer header. -/
theorem C3_amended_witness :
    getBearerToken rDemoHeader = .ok "tokA" :=
  (C3_amended rDemoHeader "Bearer" "tokA" (by decide) (by decide)).1 (by decide)

/-- C4: for a GetPermissions call on a valid, non-expired credential — when
the permission cache is expired or never populated, exactly one
permission-lookup call with (subject, audience, token) happens, the cached set
is overwritten re-sorted, and the cache expiry becomes now +
PermissionExpireTime; when the cache is unexpired, no permission-lookup call
happens and the cached set is returned unchanged. -/
theorem C4_theorem (s : OAuthSession) (now : Int) (r : Request)
    (data : AuthSessionData) (fh : Bool) (log : CallLog)
    (hget : getAuthSessionDataFromRequest s now r = (.ok (data, fh), log))
    (hvalid : data.isTokenExpired now = false) :
    (∀ perms, data.cookieData.isPermissionsExpired now = true →
      s.tokenVerifier.GetPermissionsFunc data.Subject data.Audience data.cookieData.token
        = .ok perms →
      (GetPermissions s now r).2.permissionCalls
        = [(data.Subject, data.Audience, data.cookieData.token)] ∧
      ensurePermUpdated s now data =
        (.ok (true, { data with cookieData := { data.cookieData with
            Permissions := goSortStrings perms
            PermissionsExpireAt := now + PermissionExpireTime } }),
         ⟨[], [(data.Subject, data.Audience, data.cookieData.token)]⟩) ∧
      (r.issueErr = none → (GetPermissions s now r).1 = .ok (goSortStrings perms))) ∧
    (data.cookieData.isPermissionsExpired now = false →
      (GetPermissions s now r).2.permissionCalls = [] ∧
      (r.issueErr = none →
        (GetPermissions s now r).1 = .ok data.cookieData.Permissions)) := by
  have hlog : log.permissionCalls = [] := by
    have h0 := getAuth_permissionCalls_nil s now r
    rw [hget] at h0
    exact h0
  constructor
  · intro perms hexp hcall
    have hepu : ensurePermUpdated s now data =
        (.ok (true, { data with cookieData := { data.cookieData with
            Permissions := goSortStrings perms
            PermissionsExpireAt := now + PermissionExpireTime } }),
         ⟨[], [(data.Subject, data.Audience, data.cookieData.token)]⟩) := by
      simp [ensurePermUpdated, hexp, hcall]
    refine ⟨?_, hepu, ?_⟩
    · rcases hie : r.issueErr with _ | e <;>
        simp [GetPermissions, hget, hvalid, hepu, issueAuthCookie, hie,
          CallLog.append, hlog]
    · intro hie
      simp [GetPermissions, hget, hvalid, hepu, issueAuthCookie, hie]
  · intro hexp
    have hepu : ensurePermUpdated s now data = (.ok (false, data), CallLog.empty) := by
      simp [ensurePermUpdated, hexp]
    constructor
    · cases fh with
      | false =>
        simp [GetPermissions, hget, hvalid, hepu, CallLog.append, CallLog.empty, hlog]
      | true =>
        rcases hie : r.issueErr with _ | e <;>
          simp [GetPermissions, hget, hvalid, hepu, issueAuthCookie, hie,
            CallLog.append, CallLog.empty, hlog]
    · intro hie
      cases fh <;>
        simp [GetPermissions, hget, hvalid, hepu, issueAuthCookie, hie,
          CallLog.append, CallLog.empty]

/-- Witness for C4 on the stale-cache fixture: one refresh call with the
triple, and the re-sorted set returned. -/
theorem C4_witness :
    (GetPermissions sDemo 1000 rDemoStale).2.permissionCalls
      = [("alice", "client1", demoToken)] ∧
    (GetPermissions sDemo 1000 rDemoStale).1 = .ok ["read", "write"] := by
  have h := C4_theorem sDemo 1000 rDemoStale
    ⟨"alice", "client1", demoCookieStale⟩ false ⟨["tokA"], []⟩ (by decide) (by decide)
  obtain ⟨h1, _, h3⟩ := h.1 ["write", "read"] (by decide) (by decide)
  refine ⟨h1, ?_⟩
  have h4 := h3 rfl
  rw [show goSortStrings ["write", "read"] = ["read", "write"] from by decide] at h4
  exact h4

/-- C5: HasPermission fails closed — false on any GetPermissions error — and
on success against the sorted returned permission set it is true exactly when
the permission is an element, membership decided by the binary search for an
exact string match. -/
theorem C5_theorem (s : OAuthSession) (now : Int) (r : Request) (permission : String) :
    (∀ e, (GetPermissions s now r).1 = .error e →
      (HasPermission s now r permission).1 = false) ∧
    (∀ perms, (GetPermissions s now r).1 = .ok perms → SortedPerms perms →
      ((HasPermission s now r permission).1 = true ↔ permission ∈ perms)) := by
  constructor
  · intro e he
    unfold HasPermission
    rcases hg : GetPermissions s now r with ⟨res, log⟩
    rw [hg] at he
    cases res with
    | error e2 => simp
    | ok perms => simp at he
  · intro perms hg hs
    unfold HasPermission
    rcases hg2 : GetPermissions s now r with ⟨res, log⟩
    rw [hg2] at hg
    cases res with
    | error e => simp at hg
    | ok perms2 =>
      have hp : perms2 = perms := by simpa using hg
      subst hp
      simpa using goSearchStrings_mem perms2 permission hs

/-- Witness for C5 on the fresh-cache fixture. -/
theorem C5_witness :
    (HasPermission sDemo 1000 rDemoCookie "read").1 = true :=
  ((C5_theorem sDemo 1000 rDemoCookie "read").2 ["read"]
    (by decide) (by decide)).mpr (by decide)

/-- C6, counterexample: a request with no stored session record and no header
credential fails GetSessionData and GetPermissions with
ErrorInvalidAuthorizationHeaderFormat — the header-extraction error — and not
with the claimed ErrorInvalidSession. -/
theorem C6_counterexample :
    (GetSessionData sDemo 1000 rDemoEmpty).1
      = .error .ErrorInvalidAuthorizationHeaderFormat ∧
    (GetPermissions sDemo 1000 rDemoEmpty).1
      = .error .ErrorInvalidAuthorizationHeaderFormat ∧
    OError.ErrorInvalidAuthorizationHeaderFormat ≠ OError.ErrorInvalidSession := by decide

/-- C6, amended: when the request has no usable cookie record, a failing
header extraction makes GetSessionData and GetPermissions fail with that
header error (ErrorInvalidAuthorizationHeaderFormat or
ErrorUnsupportedAuthorizationType), not ErrorInvalidSession; while a header
credential that introspects, with matching audience, to an already-past
(non-zero) expiry makes both fail with ErrorInvalidSession. -/
theorem C6_amended (s : OAuthSession) (now : Int) (r : Request)
    (hnocookie : ∀ cd, retrieveAuthCookie r = some cd → cd.isTokenExpired now = true) :
    (∀ e, getBearerToken r = .error e →
      (GetSessionData s now r).1 = .error e ∧ (GetPermissions s now r).1 = .error e) ∧
    (∀ av subject expireAt extra, getBearerToken r = .ok av →
      s.tokenVerifier.IntrospectTokenFunc av
        = .ok (subject, s.client.ClientID, expireAt, extra) →
      expireAt ≠ goZeroTimeUnix → expireAt < now →
      (GetSessionData s now r).1 = .error .ErrorInvalidSession ∧
      (GetPermissions s now r).1 = .error .ErrorInvalidSession) := by
  constructor
  · intro e he
    have hext : extractAccessValue now r = .error e := by
      unfold extractAccessValue
      rcases hc : retrieveAuthCookie r with _ | cd
      · simp [he, Except.map]
      · simp [hnocookie cd hc, he, Except.map]
    have hget : getAuthSessionDataFromRequest s now r = (.error e, CallLog.empty) := by
      simp [getAuthSessionDataFromRequest, hext]
    exact ⟨by simp [GetSessionData, hget], by simp [GetPermissions, hget]⟩
  · intro av subject expireAt extra hok hintro hnz hpast
    have hext : extractAccessValue now r = .ok (av, true, none) := by
      unfold extractAccessValue
      rcases hc : retrieveAuthCookie r with _ | cd
      · simp [hok, Except.map]
      · simp [hnocookie cd hc, hok, Except.map]
    have hget : getAuthSessionDataFromRequest s now r =
        (.ok (⟨subject, s.client.ClientID,
          newAuthSessionCookieData now ((makeBearerToken av expireAt).withExtra extra)⟩,
          true), ⟨[av], []⟩) := by
      simp [getAuthSessionDataFromRequest, hext, hintro]
    have hexp : (newAuthSessionCookieData now
        ((makeBearerToken av expireAt).withExtra extra)).isTokenExpired now = true := by
      simp [newAuthSessionCookieData, Token.expiryIsZero, makeBearerToken, makeToken,
        Token.withExtra, hnz, AuthSessionCookieData.isTokenExpired, hpast]
    constructor
    · simp [GetSessionData, hget, AuthSessionData.isTokenExpired, hexp]
    · simp [GetPermissions, hget, AuthSessionData.isTokenExpired, hexp]

/-- Witness for the C6 amended theorem: an expired header credential yields
ErrorInvalidSession. -/
theorem C6_amended_witness :
    (GetSessionData sDemoPast 1000 rDemoHeader).1 = .error .ErrorInvalidSession :=
  ((C6_amended sDemoPast 1000 rDemoHeader (by decide)).2 "tokA" "alice" 500 []
    (by decide) (by decide) (by decide) (by decide)).1

/-- C7: a token whose expiry is the zero value, persisted as a fresh session
record through the OAuth callback, gets effective expiry now +
SessionExpireTime with SessionExpireTime = 86400 — neither eternal (a later
instant sees it expired) nor already expired at issuance. -/
theorem C7_theorem (s : OAuthSession) (now : Int) (r : CallbackRequest) (token : Token)
    (hex : r.exchangeResult = .ok token)
    (hzero : token.Expiry = goZeroTimeUnix)
    (hissue : r.issueErr = none) :
    (CallbackView s now r).2 = some (newAuthSessionCookieData now token) ∧
    (newAuthSessionCookieData now token).token.Expiry = now + SessionExpireTime ∧
    SessionExpireTime = 86400 ∧
    (newAuthSessionCookieData now token).isTokenExpired now = false ∧
    (newAuthSessionCookieData now token).isTokenExpired
      (now + SessionExpireTime + 1) = true := by
  have hnew : (newAuthSessionCookieData now token).token.Expiry
      = now + SessionExpireTime := by
    simp [newAuthSessionCookieData, Token.expiryIsZero, hzero]
  refine ⟨?_, hnew, rfl, ?_, ?_⟩
  · simp [CallbackView, hex, hissue, issueAuthCookie]
  · simp only [AuthSessionCookieData.isTokenExpired, hnew]
    simp [SessionExpireTime]
  · simp only [AuthSessionCookieData.isTokenExpired, hnew]
    simp [SessionExpireTime]

/-- Witness for C7 on the concrete callback fixture. -/
theorem C7_witness :
    (CallbackView sDemo 1000 rDemoCallback).2
      = some (newAuthSessionCookieData 1000
          { AccessToken := "tokB", TokenType := "Bearer"
            Expiry := goZeroTimeUnix, extra := [] }) :=
  (C7_theorem sDemo 1000 rDemoCallback
    { AccessToken := "tokB", TokenType := "Bearer", Expiry := goZeroTimeUnix, extra := [] }
    rfl rfl rfl).1

/-- C8: the permission list of a freshly created session record is sorted
(empty), and ensurePermUpdated preserves the sortedness invariant — the record
it returns has a sorted permission list whether it refreshed (freshly sorted)
or not (unchanged). -/
theorem C8_theorem (s : OAuthSession) (now : Int) (t : Token) (data : AuthSessionData)
    (b : Bool) (data2 : AuthSessionData) (log : CallLog)
    (hsorted : SortedPerms data.cookieData.Permissions)
    (hrun : ensurePermUpdated s now data = (.ok (b, data2), log)) :
    SortedPerms (newAuthSessionCookieData now t).Permissions ∧
    SortedPerms data2.cookieData.Permissions := by
  constructor
  · simp [newAuthSessionCookieData, SortedPerms]
  · unfold ensurePermUpdated at hrun
    cases hexp : data.cookieData.isPermissionsExpired now with
    | false =>
      rw [if_pos (by simp [hexp])] at hrun
      simp only [Prod.mk.injEq, Except.ok.injEq] at hrun
      obtain ⟨⟨_, hd⟩, _⟩ := hrun
      exact hd ▸ hsorted
    | true =>
      rw [if_neg (by simp [hexp])] at hrun
      rcases hcall : s.tokenVerifier.GetPermissionsFunc data.Subject data.Audience
          data.cookieData.token with e | perms <;> rw [hcall] at hrun
      · simp at hrun
      · simp only [Prod.mk.injEq, Except.ok.injEq] at hrun
        obtain ⟨⟨_, hd⟩, _⟩ := hrun
        rw [← hd]
        simpa using goSortStrings_sorted perms

/-- Witness for C8 on the stale-cache fixture. -/
theorem C8_witness :
    SortedPerms (newAuthSessionCookieData 1000 demoToken).Permissions ∧
    SortedPerms (AuthSessionData.mk "alice" "client1"
      (AuthSessionCookieData.mk demoToken ["read", "write"] 1600)).cookieData.Permissions :=
  C8_theorem sDemo 1000 demoToken ⟨"alice", "client1", demoCookieStale⟩ true
    ⟨"alice", "client1", ⟨demoToken, ["read", "write"], 1600⟩⟩
    ⟨[], [("alice", "client1", demoToken)]⟩ (by decide) (by decide)

/-- C9: in the session manager, every permission-lookup invocation passes
exactly the (subject, audience, token) triple of the identity being checked,
and the extraction path passes the extracted raw access value to the
introspection collaborator, consuming its result as (subject, audience,
expiry, extra claims): these are exactly the shapes the claim states, and the
main source file calls. (The separate interface declaration file declares
incompatible shapes — see the recorded divergence.) -/
theorem C9_theorem (s : OAuthSession) (now : Int) (r : Request)
    (data : AuthSessionData) (res : Except OError (Bool × AuthSessionData)) (log : CallLog)
    (av : String) (fh : Bool) (cdo : Option AuthSessionCookieData)
    (hrun : ensurePermUpdated s now data = (res, log))
    (hext : extractAccessValue now r = .ok (av, fh, cdo)) :
    (∀ c ∈ log.permissionCalls, c = (data.Subject, data.Audience, data.cookieData.token)) ∧
    (getAuthSessionDataFromRequest s now r).2.introspectCalls = [av] := by
  constructor
  · intro c hc
    have h0 := ensurePermUpdated_permissionCalls s now data
    rw [hrun] at h0
    rcases h0 with h0 | h0
    · rw [h0] at hc
      simp at hc
    · rw [h0] at hc
      simpa using hc
  · simp only [getAuthSessionDataFromRequest, hext]
    rcases hi : s.tokenVerifier.IntrospectTokenFunc av with e | ⟨subj, aud, exp, ex⟩
    · simp [hi]
    · simp only [hi]
      dsimp only
      split <;> rfl

/-- Witness for C9 on the stale-cache fixture. -/
theorem C9_witness :
    (getAuthSessionDataFromRequest sDemo 1000 rDemoStale).2.introspectCalls = ["tokA"] :=
  (C9_theorem sDemo 1000 rDemoStale ⟨"alice", "client1", demoCookieStale⟩
    (.ok (true, ⟨"alice", "client1", ⟨demoToken, ["read", "write"], 1600⟩⟩))
    ⟨[], [("alice", "client1", demoToken)]⟩ "tokA" false (some demoCookieStale)
    (by decide) (by decide)).2

/-- C10: on a request for which the cookie store fails to retrieve the named
session, the ExpireSession handler panics instead of deleting the artifact or
completing the redirect. -/
theorem C10_theorem (s : OAuthSession) (redirect : String) (r : Request) (msg : String)
    (herr : r.cookie = .getError msg) :
    ExpireSession s redirect r = .panicked := by
  simp [ExpireSession, expireAuthCookie, herr]

/-- Witness for C10 on a request whose cookie fails to decode. -/
theorem C10_witness :
    ExpireSession sDemo "/login" rDemoGetErr = .panicked :=
  C10_theorem sDemo "/login" rDemoGetErr "securecookie: decode failed" (by decide)

end Osecure
